import Mathlib

/-!
Verification of the BMS RS485/BLE service suite frame engine.

Shallow embedding of the frame-engine code of the repository
(src/tools/daly_ble_read.py, src/tools/jk_ble_read.py,
src/tools/jk_ble_probe.py, src/tools/jk_ble_write.py).
Bytes are modelled as `Nat` (buffers as `List Nat`); Python machine
arithmetic is made explicit with `% 256`, `% 2^16`, `% 2^32`.
-/

namespace Daly

/-- `_checksum` from `src/tools/daly_ble_read.py` (line 39):
sum of the bytes, masked with `0xFF`. -/
def checksumA (l : List Nat) : Nat := l.sum % 256

/-- `build_request` (daly_ble_read.py line 43): 12-byte header
`A5 40 cmd 08` + 8 zero payload bytes, followed by the checksum byte. -/
def build_request (cmd : Nat) : List Nat :=
  let fr := [0xA5, 0x40, cmd % 256, 0x08] ++ List.replicate 8 0
  fr ++ [checksumA fr]

/-- `verify_frame` (daly_ble_read.py line 49): 13 bytes, start byte `0xA5`,
fixed length byte `0x08` at index 3, and checksum over the first 12 bytes
equal to the final byte (`fr[12] & 0xFF`). -/
def verify_frame (fr : List Nat) : Bool :=
  (fr.length == 13) && (fr.getD 0 0 == 0xA5) && (fr.getD 3 0 == 0x08) &&
    (checksumA (fr.take 12) == fr.getD 12 0 % 256)

/-- Scanning loop of `split_frames` (daly_ble_read.py lines 65-81).
Returns the extracted frames and the bytes kept in the buffer: a byte that
is not `0xA5` is consumed; at an `0xA5` with fewer than 13 bytes remaining
the scan stops keeping the remainder; a valid 13-byte candidate is emitted
and consumed whole; an invalid candidate consumes just the `0xA5` byte.
The index advance `i += 13` after a valid candidate is realised
structurally: the head byte is consumed together with a pending skip
count of 12, which consumes the remaining candidate bytes one at a time. -/
def splitFramesGoAux : List Nat → Nat → List (List Nat) × List Nat
  | [], _ => ([], [])
  | _ :: rest, skip + 1 => splitFramesGoAux rest skip
  | b :: rest, 0 =>
    if b = 0xA5 then
      if rest.length + 1 < 13 then ([], b :: rest)
      else
        let cand := (b :: rest).take 13
        if verify_frame cand then
          let res := splitFramesGoAux rest 12
          (cand :: res.1, res.2)
        else
          splitFramesGoAux rest 0
    else
      splitFramesGoAux rest 0

/-- The scanning loop entry point: scan from the start of the buffer with
no pending skip. -/
def splitFramesGo (buf : List Nat) : List (List Nat) × List Nat :=
  splitFramesGoAux buf 0

/-- `split_frames` (daly_ble_read.py line 59): the scan plus the
runaway-buffer cap (`if len(buf) > 4096: del buf[:-1024]`). -/
def split_frames (buf : List Nat) : List (List Nat) × List Nat :=
  let res := splitFramesGo buf
  (res.1, if 4096 < res.2.length then res.2.drop (res.2.length - 1024) else res.2)

/-- Helper: the scan's leftover is at most 12 bytes and, when non-empty,
begins with the start byte `0xA5`. -/
theorem splitFramesGoAux_spec : ∀ (buf : List Nat) (skip : Nat),
    (splitFramesGoAux buf skip).2.length ≤ 12 ∧
    ((splitFramesGoAux buf skip).2 = [] ∨
      (splitFramesGoAux buf skip).2.getD 0 0 = 0xA5) := by
  intro buf
  induction buf with
  | nil => intro skip; simp [splitFramesGoAux]
  | cons b rest ih =>
    intro skip
    match skip with
    | sk + 1 => simpa [splitFramesGoAux] using ih sk
    | 0 =>
      by_cases hb : b = 0xA5
      · subst hb
        by_cases hlen : rest.length + 1 < 13
        · simp only [splitFramesGoAux, if_pos rfl, if_pos hlen]
          exact ⟨by simp; omega, Or.inr (by simp)⟩
        · by_cases hv : verify_frame (List.take 13 (0xA5 :: rest)) = true
          · simp only [splitFramesGoAux, if_pos rfl, if_neg hlen]
            rw [if_pos hv]
            simpa using ih 12
          · simp only [splitFramesGoAux, if_pos rfl, if_neg hlen]
            rw [if_neg hv]
            exact ih 0
      · simp only [splitFramesGoAux, if_neg hb]
        exact ih 0

/-- Helper: `splitFramesGo` leftover is at most 12 bytes and, when
non-empty, begins with `0xA5`. -/
theorem splitFramesGo_spec (buf : List Nat) :
    (splitFramesGo buf).2.length ≤ 12 ∧
    ((splitFramesGo buf).2 = [] ∨ (splitFramesGo buf).2.getD 0 0 = 0xA5) :=
  splitFramesGoAux_spec buf 0

/-- Helper: a frame accepted by `verify_frame` has length 13 and starts
with `0xA5`. -/
theorem verify_frame_shape {fr : List Nat} (h : verify_frame fr = true) :
    fr.length = 13 ∧ fr.getD 0 0 = 0xA5 := by
  simp only [verify_frame, Bool.and_eq_true, beq_iff_eq] at h
  exact ⟨h.1.1.1, h.1.1.2⟩

/-- Helper: unfolding equation for the scan step at skip 0. -/
theorem splitFramesGoAux_cons_scan (b : Nat) (rest : List Nat) :
    splitFramesGoAux (b :: rest) 0 =
      if b = 0xA5 then
        if rest.length + 1 < 13 then ([], b :: rest)
        else if verify_frame ((b :: rest).take 13) = true then
          (((b :: rest).take 13) :: (splitFramesGoAux rest 12).1,
            (splitFramesGoAux rest 12).2)
        else splitFramesGoAux rest 0
      else splitFramesGoAux rest 0 := rfl

/-- Helper: a pending skip of `l.length` consumes exactly `l`. -/
theorem splitFramesGoAux_skip : ∀ (l rest : List Nat),
    splitFramesGoAux (l ++ rest) l.length = splitFramesGoAux rest 0 := by
  intro l
  induction l with
  | nil => intro rest; rfl
  | cons b l' ih =>
    intro rest
    simpa [splitFramesGoAux] using ih rest

/-- Helper: a frame accepted by `verify_frame` at the scan position is
extracted whole and the scan continues after it. -/
theorem splitFramesGoAux_frame {A : List Nat} (rest : List Nat)
    (h : verify_frame A = true) :
    splitFramesGoAux (A ++ rest) 0 =
      ((A :: (splitFramesGoAux rest 0).1), (splitFramesGoAux rest 0).2) := by
  obtain ⟨hlen, hhead⟩ := verify_frame_shape h
  match A, hlen with
  | a :: A', hlen =>
    have ha : a = 0xA5 := by simpa using hhead
    subst ha
    have hA' : A'.length = 12 := by simpa using hlen
    have hnl : ¬ ((A' ++ rest).length + 1 < 13) := by simp [hA']
    have htake : ((0xA5 :: (A' ++ rest)).take 13) = 0xA5 :: A' := by
      rw [← List.cons_append]
      exact List.take_left' (by simp [hA'])
    have hskip : splitFramesGoAux (A' ++ rest) 12 = splitFramesGoAux rest 0 := by
      rw [← hA']
      exact splitFramesGoAux_skip A' rest
    rw [List.cons_append, splitFramesGoAux_cons_scan, if_pos rfl, if_neg hnl,
      htake, if_pos h, hskip]

/-- Helper: garbage bytes in front of the stream are consumed one at a
time, provided no 13-byte window starting inside the garbage passes
validation and at least one full frame's worth of bytes follows. -/
theorem splitFramesGoAux_garbage : ∀ (g rest : List Nat),
    13 ≤ rest.length →
    (∀ n, n < g.length → verify_frame ((g.drop n ++ rest).take 13) = false) →
    splitFramesGoAux (g ++ rest) 0 = splitFramesGoAux rest 0 := by
  intro g
  induction g with
  | nil => intro rest _ _; rfl
  | cons b g' ih =>
    intro rest hrest hwin
    have hnext : ∀ n, n < g'.length →
        verify_frame ((g'.drop n ++ rest).take 13) = false := by
      intro n hn
      have := hwin (n + 1) (by simp; omega)
      simpa using this
    by_cases hb : b = 0xA5
    · subst hb
      have hnl : ¬ ((g' ++ rest).length + 1 < 13) := by simp; omega
      have hcand := hwin 0 (by simp)
      simp only [List.drop_zero, List.cons_append] at hcand
      rw [List.cons_append, splitFramesGoAux_cons_scan, if_pos rfl, if_neg hnl,
        if_neg (by rw [hcand]; simp)]
      exact ih rest hrest hnext
    · rw [List.cons_append]
      simp only [splitFramesGoAux, if_neg hb]
      exact ih rest hrest hnext

/-- Helper: frames produced by `build_request` have length 13. -/
theorem build_request_length (cmd : Nat) : (build_request cmd).length = 13 := by
  simp [build_request, checksumA]

end Daly

/-- Claim C2: for every command code `c` in `0..255`, `build_request c`
produces a 13-byte frame starting with the marker `0xA5`, carrying `c` as
its third byte, whose final byte is the sum of the first 12 bytes modulo
256, and which passes `verify_frame`. -/
theorem C2_encoder_validator_roundtrip (c : Nat) (h : c < 256) :
    (Daly.build_request c).length = 13 ∧
    (Daly.build_request c).getD 0 0 = 0xA5 ∧
    (Daly.build_request c).getD 2 0 = c ∧
    (Daly.build_request c).getD 12 0 = ((Daly.build_request c).take 12).sum % 256 ∧
    Daly.verify_frame (Daly.build_request c) = true := by
  have hc : c % 256 = c := Nat.mod_eq_of_lt h
  refine ⟨Daly.build_request_length c, ?_, ?_, ?_, ?_⟩ <;>
    simp [Daly.build_request, Daly.verify_frame, Daly.checksumA, hc, List.replicate]

/-- Witness for C2 at the concrete command code `0x90`. -/
theorem C2_encoder_validator_roundtrip_witness :
    (0x90 : Nat) < 256 ∧ Daly.verify_frame (Daly.build_request 0x90) = true :=
  ⟨by decide, (C2_encoder_validator_roundtrip 0x90 (by decide)).2.2.2.2⟩

/-- Concrete leading garbage for the C1 counterexample. -/
def C1garbage1 : List Nat := [0x01, 0x02]

/-- Concrete valid protocol-A frame A (command `0x90`) for C1. -/
def C1frameA : List Nat := [0xA5, 0x40, 0x90, 0x08, 0, 0, 0, 0, 0, 0, 0, 0, 0x7D]

/-- Concrete mid-stream garbage for C1: a single spurious start byte. -/
def C1garbage2 : List Nat := [0xA5]

/-- Concrete valid protocol-A frame B (command `0x08`) for C1. -/
def C1frameB : List Nat := [0xA5, 0x40, 0x08, 0x08, 0, 0, 0, 0, 0, 0, 0, 0x9A, 0x8F]

/-- The 13-byte window that starts at the garbage `0xA5` and overlaps
frame B; it happens to pass validation. -/
def C1mixed : List Nat := [0xA5, 0xA5, 0x40, 0x08, 0x08, 0, 0, 0, 0, 0, 0, 0, 0x9A]

/-- Claim C1, counterexample: with garbage `[01 02]`, valid frame A,
garbage `[A5]` (starts with the start byte, not a full valid frame) and
valid frame B, `split_frames` does NOT return `[A, B]`: the window that
starts at the garbage `0xA5` and overlaps frame B validates and is
returned instead of B, so a garbage byte ends up inside a returned
frame. -/
theorem C1_counterexample :
    Daly.verify_frame C1frameA = true ∧
    Daly.verify_frame C1frameB = true ∧
    C1garbage2.head? = some 0xA5 ∧
    Daly.verify_frame C1garbage2 = false ∧
    Daly.split_frames (C1garbage1 ++ C1frameA ++ C1garbage2 ++ C1frameB) =
      ([C1frameA, C1mixed], []) ∧
    C1mixed ≠ C1frameB := by decide

/-- Claim C1, amended: the synchronizer run on
`garbage1 ++ A ++ garbage2 ++ B` (with `A`, `B` valid 13-byte frames and
`garbage2` beginning with the start byte `0xA5`) returns exactly `[A, B]`
in order with every garbage byte removed, PROVIDED no 13-byte window that
starts at a byte inside either garbage region passes frame validation
(the windows may extend past the garbage into the following bytes). -/
theorem C1_amended (g1 A g2 B : List Nat)
    (hA : Daly.verify_frame A = true) (hB : Daly.verify_frame B = true)
    (_hg2 : g2.head? = some 0xA5)
    (hw1 : ∀ n ∈ List.range g1.length,
      Daly.verify_frame (((g1 ++ (A ++ (g2 ++ B))).drop n).take 13) = false)
    (hw2 : ∀ n ∈ List.range g2.length,
      Daly.verify_frame (((g2 ++ B).drop n).take 13) = false) :
    Daly.split_frames (g1 ++ (A ++ (g2 ++ B))) = ([A, B], []) := by
  have hlenA := (Daly.verify_frame_shape hA).1
  have hlenB := (Daly.verify_frame_shape hB).1
  have hrest1 : 13 ≤ (A ++ (g2 ++ B)).length := by simp [hlenA]
  have hrest2 : 13 ≤ B.length := by omega
  have h1 : Daly.splitFramesGoAux (g1 ++ (A ++ (g2 ++ B))) 0 =
      Daly.splitFramesGoAux (A ++ (g2 ++ B)) 0 := by
    refine Daly.splitFramesGoAux_garbage g1 (A ++ (g2 ++ B)) hrest1 ?_
    intro n hn
    have := hw1 n (List.mem_range.mpr hn)
    rwa [List.drop_append_of_le_length (by omega)] at this
  have h2 : Daly.splitFramesGoAux (A ++ (g2 ++ B)) 0 =
      (A :: (Daly.splitFramesGoAux (g2 ++ B) 0).1,
        (Daly.splitFramesGoAux (g2 ++ B) 0).2) :=
    Daly.splitFramesGoAux_frame (g2 ++ B) hA
  have h3 : Daly.splitFramesGoAux (g2 ++ B) 0 = Daly.splitFramesGoAux B 0 := by
    refine Daly.splitFramesGoAux_garbage g2 B hrest2 ?_
    intro n hn
    have := hw2 n (List.mem_range.mpr hn)
    rwa [List.drop_append_of_le_length (by omega)] at this
  have h4 : Daly.splitFramesGoAux B 0 = ([B], ([] : List Nat)) := by
    have h := Daly.splitFramesGoAux_frame ([] : List Nat) hB
    rw [List.append_nil] at h
    simpa [Daly.splitFramesGoAux] using h
  have hgo : Daly.splitFramesGo (g1 ++ (A ++ (g2 ++ B))) = ([A, B], []) := by
    unfold Daly.splitFramesGo
    rw [h1, h2, h3, h4]
  simp [Daly.split_frames, hgo]

/-- Witness for the amended C1 at concrete garbage and frames: garbage
`[00 A5]`, frame A, garbage `[A5 01]`, frame B, where every garbage-headed
window fails validation; the result is exactly `[A, B]`. -/
theorem C1_amended_witness :
    Daly.verify_frame [0xA5, 0x40, 0x90, 0x08, 0, 0, 0, 0, 0, 0, 0, 0, 0x7D] = true ∧
    Daly.verify_frame [0xA5, 0x40, 0x93, 0x08, 0, 0, 0, 0, 0, 0, 0, 0, 0x80] = true ∧
    ([0xA5, 0x01] : List Nat).head? = some 0xA5 ∧
    Daly.split_frames ([0x00, 0xA5] ++ ([0xA5, 0x40, 0x90, 0x08, 0, 0, 0, 0, 0, 0, 0, 0, 0x7D] ++
        ([0xA5, 0x01] ++ [0xA5, 0x40, 0x93, 0x08, 0, 0, 0, 0, 0, 0, 0, 0, 0x80]))) =
      ([[0xA5, 0x40, 0x90, 0x08, 0, 0, 0, 0, 0, 0, 0, 0, 0x7D],
        [0xA5, 0x40, 0x93, 0x08, 0, 0, 0, 0, 0, 0, 0, 0, 0x80]], []) :=
  ⟨by decide, by decide, by decide,
    C1_amended [0x00, 0xA5] [0xA5, 0x40, 0x90, 0x08, 0, 0, 0, 0, 0, 0, 0, 0, 0x7D]
      [0xA5, 0x01] [0xA5, 0x40, 0x93, 0x08, 0, 0, 0, 0, 0, 0, 0, 0, 0x80]
      (by decide) (by decide) (by decide) (by decide) (by decide)⟩

/-- Claim C10: after one `split_frames` pass the retained buffer holds at
most 12 bytes, and is either empty or begins with the start byte `0xA5`;
hence the 4096-byte overflow-trim branch never fires, so `split_frames`
coincides with the bare scanning pass `splitFramesGo`. -/
theorem C10_leftover_below_frame_size (buf : List Nat) :
    (Daly.split_frames buf).2.length ≤ 12 ∧
    ((Daly.split_frames buf).2 = [] ∨ (Daly.split_frames buf).2.getD 0 0 = 0xA5) ∧
    Daly.split_frames buf = Daly.splitFramesGo buf := by
  have h := Daly.splitFramesGo_spec buf
  have hiff : ¬ 4096 < (Daly.splitFramesGo buf).2.length := by omega
  have heq : Daly.split_frames buf = Daly.splitFramesGo buf := by
    simp [Daly.split_frames, hiff]
  exact ⟨heq ▸ h.1, heq ▸ h.2, heq⟩

namespace JK

/-- `crc_simple` from src/tools/jk_ble_read.py line 110 (identically in
jk_ble_probe.py line 28 and jk_ble_write.py line 67): sum the first
`length` bytes, then take byte 0 of `c.to_bytes(2, "little")`.
`int.to_bytes(2, ...)` raises `OverflowError` when the sum does not fit
in 16 bits, modelled here as `none`; otherwise the result is the low
byte of the sum. -/
def crcSimple (arr : List Nat) (length : Nat) : Option Nat :=
  let c := (arr.take length).sum
  if c < 65536 then some (c % 256) else none

/-- `MIN_RESPONSE_SIZE` (jk_ble_read.py line 31). -/
def MIN_RESPONSE_SIZE : Nat := 300

/-- `MAX_RESPONSE_SIZE` (jk_ble_read.py line 32). -/
def MAX_RESPONSE_SIZE : Nat := 320

/-- The protocol-B response start marker `55 AA EB 90`
(jk_ble_read.py line 252). -/
def startMarker : List Nat := [0x55, 0xAA, 0xEB, 0x90]

/-- One component of a field-layout path: a dictionary key or a
trailing array-element count (translation tables, jk_ble_read.py
lines 35-107). -/
inductive PathKey where
  | key : String → PathKey
  | count : Nat → PathKey
deriving DecidableEq

/-- One field-layout entry: key path, absolute byte offset, decode
format string, and optional scale factor (represented as a numerator /
denominator pair: `0.001` is 1/1000, `0.1` is 1/10). -/
structure TEntry where
  path : List PathKey
  offset : Nat
  fmt : String
  scale : Option (Nat × Nat) := none
deriving DecidableEq

/-- `TRANSLATE_DEVICE_INFO` (jk_ble_read.py lines 35-43). -/
def TRANSLATE_DEVICE_INFO : List TEntry := [
  ⟨[.key "device_info", .key "hw_rev"], 22, "8s", none⟩,
  ⟨[.key "device_info", .key "sw_rev"], 30, "8s", none⟩,
  ⟨[.key "device_info", .key "uptime"], 38, "<L", none⟩,
  ⟨[.key "device_info", .key "vendor_id"], 6, "16s", none⟩,
  ⟨[.key "device_info", .key "manufacturing_date"], 78, "8s", none⟩,
  ⟨[.key "device_info", .key "serial_number"], 86, "10s", none⟩,
  ⟨[.key "device_info", .key "production"], 102, "8s", none⟩]

/-- `TRANSLATE_SETTINGS` (jk_ble_read.py lines 45-59). -/
def TRANSLATE_SETTINGS : List TEntry := [
  ⟨[.key "settings", .key "cell_uvp"], 10, "<L", some (1, 1000)⟩,
  ⟨[.key "settings", .key "cell_uvpr"], 14, "<L", some (1, 1000)⟩,
  ⟨[.key "settings", .key "cell_ovp"], 18, "<L", some (1, 1000)⟩,
  ⟨[.key "settings", .key "cell_ovpr"], 22, "<L", some (1, 1000)⟩,
  ⟨[.key "settings", .key "balance_trigger_voltage"], 26, "<L", some (1, 1000)⟩,
  ⟨[.key "settings", .key "power_off_voltage"], 46, "<L", some (1, 1000)⟩,
  ⟨[.key "settings", .key "max_charge_current"], 50, "<L", some (1, 1000)⟩,
  ⟨[.key "settings", .key "max_discharge_current"], 62, "<L", some (1, 1000)⟩,
  ⟨[.key "settings", .key "max_balance_current"], 50, "<L", some (1, 1000)⟩,
  ⟨[.key "settings", .key "cell_count"], 114, "<L", none⟩,
  ⟨[.key "settings", .key "charging_switch"], 118, "4?", none⟩,
  ⟨[.key "settings", .key "discharging_switch"], 122, "4?", none⟩,
  ⟨[.key "settings", .key "balancing_switch"], 126, "4?", none⟩]

/-- `TRANSLATE_CELL_INFO_24S` (jk_ble_read.py lines 61-83). -/
def TRANSLATE_CELL_INFO_24S : List TEntry := [
  ⟨[.key "cell_info", .key "voltages", .count 32], 6, "<H", some (1, 1000)⟩,
  ⟨[.key "cell_info", .key "average_cell_voltage"], 58, "<H", some (1, 1000)⟩,
  ⟨[.key "cell_info", .key "delta_cell_voltage"], 60, "<H", some (1, 1000)⟩,
  ⟨[.key "cell_info", .key "max_voltage_cell"], 62, "<B", none⟩,
  ⟨[.key "cell_info", .key "min_voltage_cell"], 63, "<B", none⟩,
  ⟨[.key "cell_info", .key "resistances", .count 32], 64, "<H", some (1, 1000)⟩,
  ⟨[.key "cell_info", .key "total_voltage"], 118, "<H", some (1, 1000)⟩,
  ⟨[.key "cell_info", .key "current"], 126, "<l", some (1, 1000)⟩,
  ⟨[.key "cell_info", .key "temperature_sensor_1"], 130, "<H", some (1, 10)⟩,
  ⟨[.key "cell_info", .key "temperature_sensor_2"], 132, "<H", some (1, 10)⟩,
  ⟨[.key "cell_info", .key "temperature_mos"], 134, "<H", some (1, 10)⟩,
  ⟨[.key "cell_info", .key "balancing_current"], 138, "<H", some (1, 1000)⟩,
  ⟨[.key "cell_info", .key "balancing_action"], 140, "<B", some (1, 1000)⟩,
  ⟨[.key "cell_info", .key "battery_soc"], 141, "B", none⟩,
  ⟨[.key "cell_info", .key "capacity_remain"], 142, "<L", some (1, 1000)⟩,
  ⟨[.key "cell_info", .key "capacity_nominal"], 146, "<L", some (1, 1000)⟩,
  ⟨[.key "cell_info", .key "cycle_count"], 150, "<L", none⟩,
  ⟨[.key "cell_info", .key "cycle_capacity"], 154, "<L", some (1, 1000)⟩,
  ⟨[.key "cell_info", .key "charging_switch_enabled"], 166, "1?", none⟩,
  ⟨[.key "cell_info", .key "discharging_switch_enabled"], 167, "1?", none⟩,
  ⟨[.key "cell_info", .key "balancing_active"], 191, "1?", none⟩]

/-- `TRANSLATE_CELL_INFO_32S` (jk_ble_read.py lines 85-107): identical to
the 24S table except that `temperature_mos` sits at base offset 112. -/
def TRANSLATE_CELL_INFO_32S : List TEntry := [
  ⟨[.key "cell_info", .key "voltages", .count 32], 6, "<H", some (1, 1000)⟩,
  ⟨[.key "cell_info", .key "average_cell_voltage"], 58, "<H", some (1, 1000)⟩,
  ⟨[.key "cell_info", .key "delta_cell_voltage"], 60, "<H", some (1, 1000)⟩,
  ⟨[.key "cell_info", .key "max_voltage_cell"], 62, "<B", none⟩,
  ⟨[.key "cell_info", .key "min_voltage_cell"], 63, "<B", none⟩,
  ⟨[.key "cell_info", .key "resistances", .count 32], 64, "<H", some (1, 1000)⟩,
  ⟨[.key "cell_info", .key "total_voltage"], 118, "<H", some (1, 1000)⟩,
  ⟨[.key "cell_info", .key "current"], 126, "<l", some (1, 1000)⟩,
  ⟨[.key "cell_info", .key "temperature_sensor_1"], 130, "<H", some (1, 10)⟩,
  ⟨[.key "cell_info", .key "temperature_sensor_2"], 132, "<H", some (1, 10)⟩,
  ⟨[.key "cell_info", .key "temperature_mos"], 112, "<H", some (1, 10)⟩,
  ⟨[.key "cell_info", .key "balancing_current"], 138, "<H", some (1, 1000)⟩,
  ⟨[.key "cell_info", .key "balancing_action"], 140, "<B", some (1, 1000)⟩,
  ⟨[.key "cell_info", .key "battery_soc"], 141, "B", none⟩,
  ⟨[.key "cell_info", .key "capacity_remain"], 142, "<L", some (1, 1000)⟩,
  ⟨[.key "cell_info", .key "capacity_nominal"], 146, "<L", some (1, 1000)⟩,
  ⟨[.key "cell_info", .key "cycle_count"], 150, "<L", none⟩,
  ⟨[.key "cell_info", .key "cycle_capacity"], 154, "<L", some (1, 1000)⟩,
  ⟨[.key "cell_info", .key "charging_switch_enabled"], 166, "1?", none⟩,
  ⟨[.key "cell_info", .key "discharging_switch_enabled"], 167, "1?", none⟩,
  ⟨[.key "cell_info", .key "balancing_active"], 191, "1?", none⟩]

/-- Which of the module-level translation tables
`self.translate_cell_info` currently aliases: the initial empty list, or
one of the two cell-info tables (Python assigns the list objects
themselves, so later in-place mutation acts on the module-level table). -/
inductive TableRef where
  | empty : TableRef
  | t24 : TableRef
  | t32 : TableRef
deriving DecidableEq

/-- State of a `JKDecoder` session (jk_ble_read.py lines 129-136),
restricted to the fields the frame engine touches: the byte buffer, the
variant selection, the (mutable, aliased) cell-info tables, and a flag
standing for `bms_status["last_update"]` having been written. The decoded
field values written into `bms_status` are not modelled; no claim
references them. -/
structure JKState where
  frameBuffer : List Nat
  bmsMaxCellCount : Option Nat
  translateCellInfo : TableRef
  table24 : List TEntry
  table32 : List TEntry
  lastUpdated : Bool
deriving DecidableEq

/-- A fresh `JKDecoder` (jk_ble_read.py `__init__`). -/
def initJKState : JKState :=
  ⟨[], none, .empty, TRANSLATE_CELL_INFO_24S, TRANSLATE_CELL_INFO_32S, false⟩

/-- Little-endian unsigned 32-bit read (`unpack_from("<L", fb, i)`),
with out-of-range bytes read as 0 (the buffers involved are at least 300
bytes long wherever this is used). -/
def u32le (l : List Nat) (i : Nat) : Nat :=
  l.getD i 0 + 256 * l.getD (i + 1) 0 + 65536 * l.getD (i + 2) 0 +
    16777216 * l.getD (i + 3) 0

/-- `JKDecoder.get_bms_max_cell_count` (jk_ble_read.py lines 138-149):
re-derives the layout variant from the current buffer every time it is
called — 24-cell when fewer than 292 bytes are buffered or byte 287 is
zero, 32-cell when byte 287 is positive. -/
def getBmsMaxCellCount (st : JKState) : JKState :=
  if st.frameBuffer.length < 292 then
    { st with bmsMaxCellCount := some 24, translateCellInfo := .t24 }
  else if 0 < st.frameBuffer.getD 287 0 then
    { st with bmsMaxCellCount := some 32, translateCellInfo := .t32 }
  else
    { st with bmsMaxCellCount := some 24, translateCellInfo := .t24 }

/-- In-place mutation of whichever module-level table
`translate_cell_info` currently aliases. -/
def mutateSelectedTable (st : JKState) (f : List TEntry → List TEntry) : JKState :=
  match st.translateCellInfo with
  | .empty => st
  | .t24 => { st with table24 := f st.table24 }
  | .t32 => { st with table32 := f st.table32 }

/-- The cell-count adaptation in `JKDecoder.decode_settings`
(jk_ble_read.py lines 213-218): entries whose path has at least three
components and whose second-to-last key is `voltages` or `resistances`
get their trailing array count replaced by the decoded cell count. -/
def adaptCellCountEntry (c : Nat) (e : TEntry) : TEntry :=
  if 3 ≤ e.path.length ∧
      (e.path.getD (e.path.length - 2) (.count 0) = .key "voltages" ∨
       e.path.getD (e.path.length - 2) (.count 0) = .key "resistances") then
    { e with path := e.path.take (e.path.length - 1) ++ [.count c] }
  else e

/-- State effect of `JKDecoder.decode_settings` (jk_ble_read.py lines
207-219): decodes the settings record (value writes to `bms_status` are
outside the model), then rewrites the array counts of the currently
selected cell-info table to the decoded `cell_count` (offset 114, `<L`). -/
def decodeSettingsEff (st : JKState) : JKState :=
  let ccount := u32le st.frameBuffer 114
  let st' := mutateSelectedTable st (fun tbl => tbl.map (adaptCellCountEntry ccount))
  { st' with lastUpdated := true }

/-- Result of one `assemble_and_maybe_decode` call: the Python return
value (`None` / `"settings"` / `"cell_info"` / `"device_info"`), or the
propagation of the `OverflowError` that `crc_simple` raises when the
byte sum of the checked prefix exceeds 16 bits. -/
inductive JKRes where
  | ok : Option String → JKRes
  | overflowError : JKRes
deriving DecidableEq

/-- The buffer manipulation at the head of
`JKDecoder.assemble_and_maybe_decode` (jk_ble_read.py lines 249-255):
drop an over-long buffer, reset on a chunk that starts with the 4-byte
start marker, then append the chunk. -/
def jkAppend (st : JKState) (data : List Nat) : List Nat :=
  let fb0 := if MAX_RESPONSE_SIZE < st.frameBuffer.length then [] else st.frameBuffer
  let fb1 := if 4 ≤ data.length ∧ data.take 4 = startMarker then [] else fb0
  fb1 ++ data

/-- `JKDecoder.assemble_and_maybe_decode` (jk_ble_read.py lines
248-284): append the chunk (with trim/reset), and once at least
`MIN_RESPONSE_SIZE` bytes are buffered check the checksum; on mismatch
return `None` leaving all other state untouched; on match re-derive the
layout variant and dispatch on the info-type byte at offset 4. The frame
buffer is never cleared after a successful decode. -/
def assembleAndMaybeDecode (st : JKState) (data : List Nat) : JKState × JKRes :=
  let fb := jkAppend st data
  let st1 := { st with frameBuffer := fb }
  if MIN_RESPONSE_SIZE ≤ fb.length then
    match crcSimple fb (MIN_RESPONSE_SIZE - 1) with
    | none => (st1, .overflowError)
    | some cval =>
      if cval ≠ fb.getD (MIN_RESPONSE_SIZE - 1) 0 then (st1, .ok none)
      else
        let info_type := fb.getD 4 0
        let st2 := getBmsMaxCellCount st1
        if info_type = 0x01 then (decodeSettingsEff st2, .ok (some "settings"))
        else if info_type = 0x02 then
          ({ st2 with lastUpdated := true }, .ok (some "cell_info"))
        else if info_type = 0x03 then
          ({ st2 with lastUpdated := true }, .ok (some "device_info"))
        else (st2, .ok none)
  else (st1, .ok none)

/-- The per-entry extra offset applied by `JKDecoder.translate` when the
32-cell layout is active (jk_ble_read.py lines 155-159): bases at or
beyond 112 shift by 32, bases at or beyond 54 (and below 112) shift by
16, smaller bases do not shift. -/
def f32sExtraOffset (base : Nat) : Nat :=
  if 112 ≤ base then 32 else if 54 ≤ base then 16 else 0

/-- The byte position actually read by `JKDecoder.translate` for an
entry with base offset `base` at element step `step`
(`translation[1] + step + offset`, jk_ble_read.py lines 163-166). -/
def translateReadOffset (f32s : Bool) (base step : Nat) : Nat :=
  base + step + (if f32s then f32sExtraOffset base else 0)

end JK

namespace JK

/-- Helper: `get_bms_max_cell_count` selects the variant purely from the
current buffer: 32-cell iff at least 292 bytes with a positive byte at
offset 287. -/
theorem getBmsMaxCellCount_spec (s : JKState) :
    (getBmsMaxCellCount s).bmsMaxCellCount =
      some (if 292 ≤ s.frameBuffer.length ∧ 0 < s.frameBuffer.getD 287 0
            then 32 else 24) ∧
    (getBmsMaxCellCount s).translateCellInfo =
      (if 292 ≤ s.frameBuffer.length ∧ 0 < s.frameBuffer.getD 287 0
        then TableRef.t32 else TableRef.t24) := by
  constructor <;>
    (unfold getBmsMaxCellCount; split_ifs <;> simp_all <;> omega)

/-- Helper: the variant re-derivation never touches the byte buffer. -/
theorem getBmsMaxCellCount_frameBuffer (s : JKState) :
    (getBmsMaxCellCount s).frameBuffer = s.frameBuffer := by
  unfold getBmsMaxCellCount
  split_ifs <;> rfl

/-- Helper: the settings decode never touches the byte buffer. -/
theorem decodeSettingsEff_frameBuffer (s : JKState) :
    (decodeSettingsEff s).frameBuffer = s.frameBuffer := by
  cases hsel : s.translateCellInfo <;>
    simp [decodeSettingsEff, mutateSelectedTable, hsel]

/-- Helper: whatever `assemble_and_maybe_decode` does, the resulting
byte buffer is exactly the appended buffer: no branch of the call clears
or rewrites it after the append. -/
theorem assembleAndMaybeDecode_buffer (st : JKState) (data : List Nat) :
    (assembleAndMaybeDecode st data).1.frameBuffer = jkAppend st data := by
  unfold assembleAndMaybeDecode
  dsimp only
  split
  · split
    · rfl
    · split_ifs <;>
        simp [decodeSettingsEff_frameBuffer, getBmsMaxCellCount_frameBuffer]
  · rfl

/-- Helper: the settings decode mutates only the aliased table and the
timestamp; the variant selection fields pass through unchanged. -/
theorem decodeSettingsEff_variant :
    (∀ s : JKState, (decodeSettingsEff s).bmsMaxCellCount = s.bmsMaxCellCount) ∧
    (∀ s : JKState, (decodeSettingsEff s).translateCellInfo = s.translateCellInfo) := by
  constructor <;> intro s <;>
    cases hsel : s.translateCellInfo <;>
      simp [decodeSettingsEff, mutateSelectedTable, hsel]

/-- A 300-byte protocol-B cell-info frame with a given variant-flag byte
at offset 287 and a correct trailing checksum, used as concrete input for
the decoder claims. -/
def jkCellFrame (flag : Nat) : List Nat :=
  [0x55, 0xAA, 0xEB, 0x90, 0x02] ++ List.replicate 282 0 ++ [flag] ++
    List.replicate 11 0 ++ [(634 + 2 + flag) % 256]

/-- A 300-byte buffer that starts with the marker but whose checksum
byte (offset 299) is wrong. -/
def jkBadFrame : List Nat :=
  [0x55, 0xAA, 0xEB, 0x90, 0x02] ++ List.replicate 294 0 ++ [7]

end JK

set_option maxRecDepth 4000 in
/-- Claim C3, failing input: `crc_simple` on 299 bytes of `0xFF` does
not return the low byte of the sum (`76245 % 256 = 213`); the sum
exceeds `2^16 - 1`, so `c.to_bytes(2, "little")` raises
`OverflowError` (modelled as `none`). -/
theorem C3_crc_overflow_failure :
    JK.crcSimple (List.replicate 299 0xFF) 299 = none ∧
    (List.replicate 299 (0xFF : Nat)).sum % 256 = 213 := by decide

/-- Claim C4: a chunk whose first four bytes are the start marker
`55 AA EB 90` discards whatever was buffered: after the call the
decoder's buffer holds exactly the bytes of that chunk, whatever the
prior state was. -/
theorem C4_marker_hard_resync (st : JK.JKState) (data : List Nat)
    (hlen : 4 ≤ data.length) (hmark : data.take 4 = JK.startMarker) :
    (JK.assembleAndMaybeDecode st data).1.frameBuffer = data := by
  have happ : JK.jkAppend st data = data := by
    simp [JK.jkAppend, hlen, hmark]
  rw [JK.assembleAndMaybeDecode_buffer st data, happ]

/-- Witness for C4: a decoder with junk `[01 02 03]` buffered receives a
marker-headed 5-byte chunk; afterwards the buffer is exactly that chunk. -/
theorem C4_marker_hard_resync_witness :
    4 ≤ ([0x55, 0xAA, 0xEB, 0x90, 0x09] : List Nat).length ∧
    ([0x55, 0xAA, 0xEB, 0x90, 0x09] : List Nat).take 4 = JK.startMarker ∧
    (JK.assembleAndMaybeDecode
        { JK.initJKState with frameBuffer := [1, 2, 3] }
        [0x55, 0xAA, 0xEB, 0x90, 0x09]).1.frameBuffer =
      [0x55, 0xAA, 0xEB, 0x90, 0x09] :=
  ⟨by decide, by decide,
    C4_marker_hard_resync { JK.initJKState with frameBuffer := [1, 2, 3] }
      [0x55, 0xAA, 0xEB, 0x90, 0x09] (by decide) (by decide)⟩

/-- Claim C5: when the appended buffer holds at least 300 bytes but the
checksum of its first 299 bytes computes to a value different from
byte 299, `assemble_and_maybe_decode` returns `None` and the only state
change is the buffer append itself: the complete-length buffer is
retained, the variant selection, tables and telemetry timestamp are
untouched. -/
theorem C5_checksum_mismatch_keeps_state (st : JK.JKState) (data : List Nat)
    (cval : Nat)
    (hlen : 300 ≤ (JK.jkAppend st data).length)
    (hcrc : JK.crcSimple (JK.jkAppend st data) 299 = some cval)
    (hne : cval ≠ (JK.jkAppend st data).getD 299 0) :
    JK.assembleAndMaybeDecode st data =
      ({ st with frameBuffer := JK.jkAppend st data }, .ok none) := by
  unfold JK.assembleAndMaybeDecode
  have hmin : JK.MIN_RESPONSE_SIZE ≤ (JK.jkAppend st data).length := hlen
  rw [if_pos hmin]
  have h299 : JK.MIN_RESPONSE_SIZE - 1 = 299 := rfl
  rw [h299, hcrc]
  dsimp only
  rw [if_pos hne]

set_option maxRecDepth 8000 in
/-- Witness for C5: feeding the fresh decoder a 300-byte marker-headed
buffer whose checksum byte is 7 instead of 124 yields `None` and leaves
everything but the buffer unchanged. -/
theorem C5_checksum_mismatch_keeps_state_witness :
    300 ≤ (JK.jkAppend JK.initJKState JK.jkBadFrame).length ∧
    JK.crcSimple (JK.jkAppend JK.initJKState JK.jkBadFrame) 299 = some 124 ∧
    (124 : Nat) ≠ (JK.jkAppend JK.initJKState JK.jkBadFrame).getD 299 0 ∧
    JK.assembleAndMaybeDecode JK.initJKState JK.jkBadFrame =
      ({ JK.initJKState with frameBuffer := JK.jkAppend JK.initJKState JK.jkBadFrame },
        .ok none) :=
  ⟨by decide, by decide, by decide,
    C5_checksum_mismatch_keeps_state JK.initJKState JK.jkBadFrame 124
      (by decide) (by decide) (by decide)⟩

set_option maxRecDepth 8000 in
/-- Claim C9, counterexample: the layout variant is NOT sticky. A first
valid cell-info frame with flag byte 1 at offset 287 selects the 32-cell
variant; a second valid frame with flag byte 0 — in the same session —
switches the selection back to the 24-cell variant and table. -/
theorem C9_counterexample :
    (JK.assembleAndMaybeDecode JK.initJKState (JK.jkCellFrame 1)).1.bmsMaxCellCount =
      some 32 ∧
    (JK.assembleAndMaybeDecode JK.initJKState (JK.jkCellFrame 1)).1.translateCellInfo =
      .t32 ∧
    (JK.assembleAndMaybeDecode
        (JK.assembleAndMaybeDecode JK.initJKState (JK.jkCellFrame 1)).1
        (JK.jkCellFrame 0)).1.bmsMaxCellCount = some 24 ∧
    (JK.assembleAndMaybeDecode
        (JK.assembleAndMaybeDecode JK.initJKState (JK.jkCellFrame 1)).1
        (JK.jkCellFrame 0)).1.translateCellInfo = .t24 ∧
    (JK.assembleAndMaybeDecode
        (JK.assembleAndMaybeDecode JK.initJKState (JK.jkCellFrame 1)).1
        (JK.jkCellFrame 0)).2 = .ok (some "cell_info") := by decide

/-- Claim C9, amended: the variant is re-derived from the current buffer
on every decoded frame: whenever `assemble_and_maybe_decode` returns a
record, the selected count is 32 iff the (post-append) buffer has at
least 292 bytes and a positive byte at offset 287, else 24 — regardless
of what was selected before. -/
theorem C9_variant_rederived_each_frame (st : JK.JKState) (data : List Nat)
    (st' : JK.JKState) (k : String)
    (h : JK.assembleAndMaybeDecode st data = (st', .ok (some k))) :
    st'.bmsMaxCellCount =
      some (if 292 ≤ (JK.jkAppend st data).length ∧
              0 < (JK.jkAppend st data).getD 287 0 then 32 else 24) ∧
    st'.translateCellInfo =
      (if 292 ≤ (JK.jkAppend st data).length ∧
          0 < (JK.jkAppend st data).getD 287 0 then JK.TableRef.t32
        else JK.TableRef.t24) := by
  have hvar := JK.getBmsMaxCellCount_spec { st with frameBuffer := JK.jkAppend st data }
  dsimp only at hvar
  unfold JK.assembleAndMaybeDecode at h
  dsimp only at h
  by_cases hmin : JK.MIN_RESPONSE_SIZE ≤ (JK.jkAppend st data).length
  · rw [if_pos hmin] at h
    cases hcrc : JK.crcSimple (JK.jkAppend st data) (JK.MIN_RESPONSE_SIZE - 1) with
    | none => rw [hcrc] at h; exact absurd (congrArg Prod.snd h) (by simp)
    | some cval =>
      rw [hcrc] at h
      dsimp only at h
      by_cases hne : cval ≠ (JK.jkAppend st data).getD (JK.MIN_RESPONSE_SIZE - 1) 0
      · rw [if_pos hne] at h; exact absurd (congrArg Prod.snd h) (by simp)
      · rw [if_neg hne] at h
        by_cases h1 : (JK.jkAppend st data).getD 4 0 = 0x01
        · rw [if_pos h1] at h
          have hst : JK.decodeSettingsEff
              (JK.getBmsMaxCellCount { st with frameBuffer := JK.jkAppend st data }) = st' :=
            congrArg Prod.fst h
          rw [← hst, JK.decodeSettingsEff_variant.1, JK.decodeSettingsEff_variant.2]
          exact hvar
        · rw [if_neg h1] at h
          by_cases h2 : (JK.jkAppend st data).getD 4 0 = 0x02
          · rw [if_pos h2] at h
            have hst : ({ JK.getBmsMaxCellCount
                { st with frameBuffer := JK.jkAppend st data } with
                  lastUpdated := true } : JK.JKState) = st' := congrArg Prod.fst h
            rw [← hst]
            exact hvar
          · rw [if_neg h2] at h
            by_cases h3 : (JK.jkAppend st data).getD 4 0 = 0x03
            · rw [if_pos h3] at h
              have hst : ({ JK.getBmsMaxCellCount
                  { st with frameBuffer := JK.jkAppend st data } with
                    lastUpdated := true } : JK.JKState) = st' := congrArg Prod.fst h
              rw [← hst]
              exact hvar
            · rw [if_neg h3] at h
              exact absurd (congrArg Prod.snd h) (by simp)
  · rw [if_neg hmin] at h; exact absurd (congrArg Prod.snd h) (by simp)

set_option maxRecDepth 8000 in
/-- Witness for the amended C9 at the concrete first frame with flag 1:
the decode succeeds and the selected count is the one derived from the
current buffer. -/
theorem C9_variant_rederived_each_frame_witness :
    JK.assembleAndMaybeDecode JK.initJKState (JK.jkCellFrame 1) =
      ({ frameBuffer := JK.jkCellFrame 1, bmsMaxCellCount := some 32,
          translateCellInfo := .t32, table24 := JK.TRANSLATE_CELL_INFO_24S,
          table32 := JK.TRANSLATE_CELL_INFO_32S, lastUpdated := true },
        .ok (some "cell_info")) ∧
    ({ frameBuffer := JK.jkCellFrame 1, bmsMaxCellCount := some 32,
        translateCellInfo := .t32, table24 := JK.TRANSLATE_CELL_INFO_24S,
        table32 := JK.TRANSLATE_CELL_INFO_32S,
        lastUpdated := true } : JK.JKState).bmsMaxCellCount =
      some (if 292 ≤ (JK.jkAppend JK.initJKState (JK.jkCellFrame 1)).length ∧
              0 < (JK.jkAppend JK.initJKState (JK.jkCellFrame 1)).getD 287 0
            then 32 else 24) :=
  ⟨by decide,
    (C9_variant_rederived_each_frame JK.initJKState (JK.jkCellFrame 1)
      { frameBuffer := JK.jkCellFrame 1, bmsMaxCellCount := some 32,
        translateCellInfo := .t32, table24 := JK.TRANSLATE_CELL_INFO_24S,
        table32 := JK.TRANSLATE_CELL_INFO_32S, lastUpdated := true }
      "cell_info" (by decide)).1⟩

/-- Claim C6, counterexample: the wide-variant offset adjustment is not
a single fixed delta applied at or beyond one threshold. The 32-cell
table holds entries at base offsets 58 and 118; under the wide variant
both are shifted (so both sit at or beyond any purported threshold), yet
no single delta `d` accounts for both read positions: offset 58 is read
at 58 + 16 while offset 118 is read at 118 + 32. -/
theorem C6_counterexample :
    ((JK.TRANSLATE_CELL_INFO_32S.map JK.TEntry.offset).contains 58 = true) ∧
    ((JK.TRANSLATE_CELL_INFO_32S.map JK.TEntry.offset).contains 118 = true) ∧
    JK.translateReadOffset true 58 0 ≠ 58 ∧
    JK.translateReadOffset true 118 0 ≠ 118 ∧
    ¬ ∃ d : Nat, JK.translateReadOffset true 58 0 = 58 + d ∧
        JK.translateReadOffset true 118 0 = 118 + d := by
  refine ⟨by decide, by decide, by decide, by decide, ?_⟩
  rintro ⟨d, h1, h2⟩
  have e1 : JK.translateReadOffset true 58 0 = 74 := by decide
  have e2 : JK.translateReadOffset true 118 0 = 150 := by decide
  rw [e1] at h1
  rw [e2] at h2
  omega

/-- Claim C6, amended: the wide (32-cell) variant shifts field reads in
two tiers — entries with base offset at or beyond 112 decode at
`base + 32`, entries with base offset in `[54, 112)` decode at
`base + 16`, entries below 54 decode at `base` — and the narrow
(24-cell) variant decodes every entry at its base offset, for every
entry of the cell-info field table and every array element step. -/
theorem C6_two_tier_offset_shift :
    ∀ e ∈ JK.TRANSLATE_CELL_INFO_32S, ∀ step : Nat,
      (JK.translateReadOffset false e.offset step = e.offset + step) ∧
      (112 ≤ e.offset → JK.translateReadOffset true e.offset step = e.offset + step + 32) ∧
      (54 ≤ e.offset → e.offset < 112 → JK.translateReadOffset true e.offset step = e.offset + step + 16) ∧
      (e.offset < 54 → JK.translateReadOffset true e.offset step = e.offset + step) := by
  intro e _ step
  unfold JK.translateReadOffset JK.f32sExtraOffset
  refine ⟨by simp, ?_, ?_, ?_⟩
  · intro h112
    rw [if_pos rfl, if_pos h112]
  · intro h54 h112
    rw [if_pos rfl, if_neg (by omega), if_pos h54]
  · intro h54
    rw [if_pos rfl, if_neg (by omega), if_neg (by omega)]
    simp

/-- Witness for the amended C6 at the `total_voltage` entry (base offset
118, beyond the 112 tier) with element step 0. -/
theorem C6_two_tier_offset_shift_witness :
    (⟨[.key "cell_info", .key "total_voltage"], 118, "<H", some (1, 1000)⟩ : JK.TEntry)
        ∈ JK.TRANSLATE_CELL_INFO_32S ∧
    JK.translateReadOffset true 118 0 = 118 + 0 + 32 :=
  ⟨by decide,
    (C6_two_tier_offset_shift
      ⟨[.key "cell_info", .key "total_voltage"], 118, "<H", some (1, 1000)⟩
      (by decide) 0).2.1 (by decide)⟩


namespace JKWrite

/-- The numeric-setting register map `NUM` (jk_ble_write.py lines
33-48): key, 24-cell register, 32-cell register, scale factor
(`1000.0`, represented by its integer value 1000), payload length. -/
def NUM : List (String × Nat × Nat × Nat × Nat) := [
  ("cell_uvp_v", 0x02, 0x02, 1000, 4),
  ("cell_uvpr_v", 0x03, 0x03, 1000, 4),
  ("cell_ovp_v", 0x04, 0x04, 1000, 4),
  ("cell_ovpr_v", 0x05, 0x05, 1000, 4),
  ("balance_trigger_v", 0x06, 0x06, 1000, 4),
  ("power_off_v", 0x0B, 0x0B, 1000, 4),
  ("max_charge_a", 0x0C, 0x0C, 1000, 4),
  ("max_discharge_a", 0x0F, 0x0F, 1000, 4),
  ("max_balance_a", 0x13, 0x13, 1000, 4),
  ("balance_start_v", 0x26, 0x22, 1000, 4),
  ("cell_req_charge_v", 0x09, 0x09, 1000, 4),
  ("cell_req_float_v", 0x0A, 0x0A, 1000, 4),
  ("cell_soc100_v", 0x07, 0x07, 1000, 4),
  ("cell_soc0_v", 0x08, 0x08, 1000, 4)]

/-- Dictionary lookup `NUM[key]`. -/
def lookupNUM (key : String) : Option (Nat × Nat × Nat × Nat) :=
  match NUM.find? (fun e => e.1 = key) with
  | some e => some e.2
  | none => none

/-- `PROTO_JK02_32S` (jk_ble_write.py line 26). -/
def PROTO_JK02_32S : String := "jk02_32s"

/-- `pick_reg` (jk_ble_write.py lines 106-109). -/
def pick_reg (proto : String) (reg24 reg32 : Nat) : Nat :=
  if proto = PROTO_JK02_32S then reg32 else reg24

/-- `u32_to_le_bytes` (jk_ble_write.py lines 80-82): `v & 0xFFFFFFFF`
(Python's `&` on a negative int is the nonnegative value mod `2^32`),
then the four bytes least-significant first. -/
def u32_to_le_bytes (v : Int) : List Nat :=
  let w := (v % 4294967296).toNat
  [w % 256, w / 256 % 256, w / 65536 % 256, w / 16777216 % 256]

/-- `crc_simple` as defined identically in jk_ble_write.py line 67. -/
def crcSimpleW (arr : List Nat) (length : Nat) : Option Nat :=
  let c := (arr.take length).sum
  if c < 65536 then some (c % 256) else none

/-- `build_write_frame` (jk_ble_write.py lines 85-95): a 20-byte frame
`AA 55 90 EB reg len`, the first 4 payload bytes at positions 6..9,
zeros at 10..18, and the checksum of the first 19 bytes at position 19.
`none` models the `OverflowError` that `crc_simple` would raise (its
callers always pass bytes, whose 19-byte sum fits 16 bits). -/
def build_write_frame (reg : Nat) (vals4 : List Nat) (lengthArg : Nat) :
    Option (List Nat) :=
  let head := [0xAA, 0x55, 0x90, 0xEB, reg % 256, lengthArg % 256] ++
    vals4.take 4 ++ List.replicate 9 0 ++ [0]
  match crcSimpleW head 19 with
  | some c => some (head.take 19 ++ [c])
  | none => none

/-- `build_number_write` (jk_ble_write.py lines 112-122), with the
floating-point scaling step `raw = int(round(float(value) * factor))`
represented by its integer result `raw` (for the concrete values used in
the claims, e.g. `value = -1.0` with `factor = 1000.0`, that step is
exact). Returns the selected register, the little-endian payload, and
the payload length; `none` models the `KeyError` on an unknown key. -/
def build_number_write (proto : String) (key : String) (raw : Int) :
    Option (Nat × List Nat × Nat) :=
  match lookupNUM key with
  | none => none
  | some (reg24, reg32, _factor, lengthArg) =>
    let reg := pick_reg proto reg24 reg32
    some (reg, u32_to_le_bytes raw, lengthArg)

end JKWrite

/-- Claim C8, counterexample: the encoded payload is NOT clamped to the
unsigned 32-bit range. For key `cell_uvp_v` (factor 1000) and physical
value `-1.0`, the scaled integer is `-1000`; the claim requires the
clamped encoding `[0, 0, 0, 0]`, but the code wraps modulo `2^32` and
emits `[0x18, 0xFC, 0xFF, 0xFF]` (the little-endian bytes of
`4294966296`), which `build_write_frame` places at bytes 6..9. -/
theorem C8_counterexample :
    JKWrite.build_number_write "jk02_24s" "cell_uvp_v" (-1000) =
      some (0x02, [0x18, 0xFC, 0xFF, 0xFF], 4) ∧
    ([0x18, 0xFC, 0xFF, 0xFF] : List Nat) ≠ [0, 0, 0, 0] ∧
    (JKWrite.build_write_frame 0x02 [0x18, 0xFC, 0xFF, 0xFF] 4).map
        (fun fr => (fr.drop 6).take 4) =
      some [0x18, 0xFC, 0xFF, 0xFF] := by decide

/-- Helper: the four bytes produced by `u32_to_le_bytes` are bytes and
recombine, little-endian, to the scaled integer reduced modulo `2^32`. -/
theorem u32_to_le_bytes_spec (raw : Int) :
    (JKWrite.u32_to_le_bytes raw).length = 4 ∧
    (∀ b ∈ JKWrite.u32_to_le_bytes raw, b < 256) ∧
    (JKWrite.u32_to_le_bytes raw).getD 0 0 +
      256 * (JKWrite.u32_to_le_bytes raw).getD 1 0 +
      65536 * (JKWrite.u32_to_le_bytes raw).getD 2 0 +
      16777216 * (JKWrite.u32_to_le_bytes raw).getD 3 0 =
        (raw % 4294967296).toNat := by
  have hmod : (0 : Int) ≤ raw % 4294967296 := Int.emod_nonneg raw (by norm_num)
  have hlt : raw % 4294967296 < 4294967296 := Int.emod_lt_of_pos raw (by norm_num)
  have hw : (raw % 4294967296).toNat < 4294967296 := by omega
  refine ⟨rfl, ?_, ?_⟩
  · intro b hb
    simp only [JKWrite.u32_to_le_bytes, List.mem_cons, List.not_mem_nil, or_false] at hb
    rcases hb with h | h | h | h <;> subst h <;>
      exact Nat.mod_lt _ (by norm_num)
  · simp only [JKWrite.u32_to_le_bytes]
    set w := (raw % 4294967296).toNat with hwdef
    simp only [List.getD_cons_zero, List.getD_cons_succ]
    omega

/-- Helper: `build_write_frame` always succeeds on a 4-byte payload of
bytes, and the resulting 20-byte frame carries that payload at positions
6..9. -/
theorem build_write_frame_spec (reg n : Nat) (vals : List Nat)
    (hlen : vals.length = 4) (hb : ∀ b ∈ vals, b < 256) :
    ∃ frame, JKWrite.build_write_frame reg vals n = some frame ∧
      frame.length = 20 ∧ (frame.drop 6).take 4 = vals := by
  match vals, hlen with
  | [b0, b1, b2, b3], _ =>
    have h0 : b0 < 256 := hb b0 (by simp)
    have h1 : b1 < 256 := hb b1 (by simp)
    have h2 : b2 < 256 := hb b2 (by simp)
    have h3 : b3 < 256 := hb b3 (by simp)
    have hr : reg % 256 < 256 := Nat.mod_lt _ (by norm_num)
    have hn : n % 256 < 256 := Nat.mod_lt _ (by norm_num)
    have hsum : (([0xAA, 0x55, 0x90, 0xEB, reg % 256, n % 256] ++
        [b0, b1, b2, b3].take 4 ++ List.replicate 9 0 ++ [0]).take 19).sum < 65536 := by
      simp [List.replicate]
      omega
    have hbuild : JKWrite.build_write_frame reg [b0, b1, b2, b3] n =
        some ((([0xAA, 0x55, 0x90, 0xEB, reg % 256, n % 256] ++
            [b0, b1, b2, b3].take 4 ++ List.replicate 9 0 ++ [0]).take 19) ++
          [((([0xAA, 0x55, 0x90, 0xEB, reg % 256, n % 256] ++
            [b0, b1, b2, b3].take 4 ++ List.replicate 9 0 ++ [0]).take 19).sum) % 256]) := by
      unfold JKWrite.build_write_frame JKWrite.crcSimpleW
      dsimp only
      rw [if_pos hsum]
    refine ⟨_, hbuild, ?_, ?_⟩ <;> simp [List.replicate]

/-- Claim C8, amended: for every numeric-setting key and every scaled
integer `raw = round(value * factor)`, the write payload is the 4-byte
little-endian representation of `raw` reduced modulo `2^32` (two's
complement wrap-around, NOT clamping), and `build_write_frame` places
those four bytes at positions 6..9 of the 20-byte write frame. -/
theorem C8_payload_wraps_mod_u32 (proto key : String) (raw : Int) (reg : Nat)
    (vals : List Nat) (n : Nat)
    (h : JKWrite.build_number_write proto key raw = some (reg, vals, n)) :
    vals = JKWrite.u32_to_le_bytes raw ∧
    vals.length = 4 ∧
    vals.getD 0 0 + 256 * vals.getD 1 0 + 65536 * vals.getD 2 0 +
      16777216 * vals.getD 3 0 = (raw % 4294967296).toNat ∧
    ∃ frame, JKWrite.build_write_frame reg vals n = some frame ∧
      frame.length = 20 ∧ (frame.drop 6).take 4 = vals := by
  unfold JKWrite.build_number_write at h
  cases hl : JKWrite.lookupNUM key with
  | none => rw [hl] at h; exact absurd h (by simp)
  | some q =>
    obtain ⟨reg24, reg32, factor, lengthArg⟩ := q
    rw [hl] at h
    dsimp only at h
    simp only [Option.some.injEq, Prod.mk.injEq] at h
    obtain ⟨-, hvals, -⟩ := h
    have hspec := u32_to_le_bytes_spec raw
    refine ⟨hvals.symm, ?_, ?_, ?_⟩
    · rw [← hvals]; exact hspec.1
    · rw [← hvals]; exact hspec.2.2
    · exact hvals ▸ build_write_frame_spec reg n (JKWrite.u32_to_le_bytes raw)
        hspec.1 hspec.2.1

/-- Witness for the amended C8 at `raw = 3300` (value 3.3 V, factor
1000): payload `[0xE4, 0x0C, 0, 0]`. -/
theorem C8_payload_wraps_mod_u32_witness :
    JKWrite.build_number_write "jk02_24s" "cell_uvp_v" 3300 =
      some (0x02, [0xE4, 0x0C, 0x00, 0x00], 4) ∧
    ([0xE4, 0x0C, 0x00, 0x00] : List Nat) = JKWrite.u32_to_le_bytes 3300 :=
  ⟨by decide,
    (C8_payload_wraps_mod_u32 "jk02_24s" "cell_uvp_v" 3300 0x02
      [0xE4, 0x0C, 0x00, 0x00] 4 (by decide)).1⟩

namespace Daly

/-- State of the protocol-A segment aggregation loop in `run_once`
(daly_ble_read.py lines 339-356): the inferred base frame number
(`frame_base`) and the buckets `cells_by_no` as an insertion-ordered
association list from adjusted index to the segment's values. -/
structure AggState where
  frameBase : Option Nat
  buckets : List (Nat × List Nat)
deriving DecidableEq

/-- The aggregation state at the start of a poll (`cells_by_no = {}`,
`frame_base = None`, daly_ble_read.py lines 339-340). -/
def initAgg : AggState := ⟨none, []⟩

/-- Python dict assignment `cells_by_no[idx] = vals`: replace in place,
or append a new key at the end. -/
def updateBucket : List (Nat × List Nat) → Nat → List Nat → List (Nat × List Nat)
  | [], k, v => [(k, v)]
  | (k', v') :: bs, k, v =>
    if k' = k then (k, v) :: bs else (k', v') :: updateBucket bs k v

/-- Python dict lookup `cells_by_no[idx]`. -/
def bucketLookup : List (Nat × List Nat) → Nat → Option (List Nat)
  | [], _ => none
  | (k', v') :: bs, k => if k' = k then some v' else bucketLookup bs k

/-- Processing one observed segment `(frame_no, values)`
(daly_ble_read.py lines 344-350): establish `frame_base` from the first
segment (0 if its index is 0, else 1), compute `idx = frame_no - base`,
and store the values under `idx` when `idx >= 0` (`base <= frame_no`). -/
def aggStep (st : AggState) (seg : Nat × List Nat) : AggState :=
  let base := match st.frameBase with
    | some b => b
    | none => if seg.1 = 0 then 0 else 1
  if base ≤ seg.1 then ⟨some base, updateBucket st.buckets (seg.1 - base) seg.2⟩
  else ⟨some base, st.buckets⟩

/-- The aggregation loop over the segments in observation order. -/
def collectSegments (segs : List (Nat × List Nat)) : AggState :=
  segs.foldl aggStep initAgg

/-- Finalization (daly_ble_read.py lines 358-364): concatenate bucket
contents over the keys in ascending order and truncate to the expected
total count. -/
def aggFinalize (st : AggState) (n : Nat) : List Nat :=
  (((st.buckets.map Prod.fst).insertionSort (· ≤ ·)).flatMap
    (fun k => (bucketLookup st.buckets k).getD [])).take n

/-- Modelled from the spec (§4.7) for the refinement statement: the base
established from the first segment observed in a session — 0 if the
first index seen is 0, else 1. -/
def inferredBase (segs : List (Nat × List Nat)) : Nat :=
  match segs with
  | [] => 0
  | s :: _ => if s.1 = 0 then 0 else 1

/-- Modelled from the spec (§4.7) for the refinement statement: the last
delivery carried by a segment with adjusted index `k`
(last-write-wins). -/
def lastDelivery (segs : List (Nat × List Nat)) (base k : Nat) : Option (List Nat) :=
  segs.foldl (fun acc s => if s.1 - base = k then some s.2 else acc) none

/-- Modelled from the spec (§4.7) for the refinement statement: the
distinct adjusted indices, in order of first delivery (the order is
irrelevant after sorting). -/
def deliveredKeys (segs : List (Nat × List Nat)) (base : Nat) : List Nat :=
  segs.foldl (fun ks s => if s.1 - base ∈ ks then ks else ks ++ [s.1 - base]) []

/-- Modelled from the spec (§4.7): `finalize(expected_total_count)`
concatenates, in ascending index order, the last-delivered values of
each distinct adjusted index, truncated to the expected count. -/
def specFinalize (segs : List (Nat × List Nat)) (n : Nat) : List Nat :=
  (((deliveredKeys segs (inferredBase segs)).insertionSort (· ≤ ·)).flatMap
    (fun k => (lastDelivery segs (inferredBase segs) k).getD [])).take n

/-- The bucket-updating fold once the base is established. -/
def bucketsFold (b : Nat) (bs : List (Nat × List Nat))
    (segs : List (Nat × List Nat)) : List (Nat × List Nat) :=
  segs.foldl (fun acc s => updateBucket acc (s.1 - b) s.2) bs

/-- Helper: with the base already established and every segment index at
or above it, the aggregation fold is the bucket-updating fold. -/
theorem collect_established (b : Nat) : ∀ (segs : List (Nat × List Nat))
    (bs : List (Nat × List Nat)), (∀ s ∈ segs, b ≤ s.1) →
    segs.foldl aggStep ⟨some b, bs⟩ = ⟨some b, bucketsFold b bs segs⟩ := by
  intro segs
  induction segs with
  | nil => intro bs _; rfl
  | cons s rest ih =>
    intro bs hall
    have hb : b ≤ s.1 := hall s (by simp)
    have hstep : aggStep ⟨some b, bs⟩ s = ⟨some b, updateBucket bs (s.1 - b) s.2⟩ := by
      simp [aggStep, hb]
    calc (s :: rest).foldl aggStep ⟨some b, bs⟩
        = rest.foldl aggStep (aggStep ⟨some b, bs⟩ s) := rfl
      _ = rest.foldl aggStep ⟨some b, updateBucket bs (s.1 - b) s.2⟩ := by rw [hstep]
      _ = ⟨some b, bucketsFold b (updateBucket bs (s.1 - b) s.2) rest⟩ :=
          ih _ (fun x hx => hall x (by simp [hx]))
      _ = ⟨some b, bucketsFold b bs (s :: rest)⟩ := rfl

/-- Helper: dict lookup after a dict assignment. -/
theorem bucketLookup_update : ∀ (bs : List (Nat × List Nat)) (k v k'),
    bucketLookup (updateBucket bs k v) k' =
      if k = k' then some v else bucketLookup bs k' := by
  intro bs
  induction bs with
  | nil =>
    intro k v k'
    by_cases h : k = k' <;> simp [updateBucket, bucketLookup, h]
  | cons e bs ih =>
    intro k v k'
    obtain ⟨ek, ev⟩ := e
    by_cases he : ek = k
    · subst he
      by_cases h : ek = k' <;> simp [updateBucket, bucketLookup, h]
    · by_cases h : ek = k'
      · subst h
        have : ¬ k = ek := fun hc => he hc.symm
        simp [updateBucket, bucketLookup, he, this]
      · simp [updateBucket, bucketLookup, he, h, ih]

/-- Helper: keys after a dict assignment. -/
theorem updateBucket_keys : ∀ (bs : List (Nat × List Nat)) (k v),
    (updateBucket bs k v).map Prod.fst =
      if k ∈ bs.map Prod.fst then bs.map Prod.fst else bs.map Prod.fst ++ [k] := by
  intro bs
  induction bs with
  | nil => intro k v; simp [updateBucket]
  | cons e bs ih =>
    intro k v
    obtain ⟨ek, ev⟩ := e
    by_cases he : ek = k
    · subst he
      simp [updateBucket]
    · have hne : ¬ k = ek := fun hc => he hc.symm
      by_cases hm : k ∈ bs.map Prod.fst <;>
        simp [updateBucket, he, hne, ih, hm]

/-- Helper: a fold that keeps the last match ignores its accumulator up
to `Option.or`. -/
theorem lastDelivery_acc (base k : Nat) : ∀ (segs : List (Nat × List Nat))
    (acc : Option (List Nat)),
    segs.foldl (fun a s => if s.1 - base = k then some s.2 else a) acc =
      (lastDelivery segs base k).or acc := by
  intro segs
  induction segs with
  | nil => intro acc; simp [lastDelivery]
  | cons s rest ih =>
    intro acc
    have hhead : lastDelivery (s :: rest) base k =
        (lastDelivery rest base k).or (if s.1 - base = k then some s.2 else none) := by
      unfold lastDelivery
      exact ih (if s.1 - base = k then some s.2 else none)
    calc (s :: rest).foldl (fun a s => if s.1 - base = k then some s.2 else a) acc
        = rest.foldl (fun a s => if s.1 - base = k then some s.2 else a)
            (if s.1 - base = k then some s.2 else acc) := rfl
      _ = (lastDelivery rest base k).or (if s.1 - base = k then some s.2 else acc) := ih _
      _ = (lastDelivery (s :: rest) base k).or acc := by
          rw [hhead, Option.or_assoc]
          by_cases h : s.1 - base = k <;> simp [h]

/-- Helper: looking a key up in the folded buckets returns the last
delivery for that key, falling back to the initial buckets. -/
theorem bucketsFold_lookup (b : Nat) : ∀ (segs : List (Nat × List Nat))
    (bs : List (Nat × List Nat)) (k : Nat),
    bucketLookup (bucketsFold b bs segs) k =
      (lastDelivery segs b k).or (bucketLookup bs k) := by
  intro segs
  induction segs with
  | nil => intro bs k; simp [bucketsFold, lastDelivery]
  | cons s rest ih =>
    intro bs k
    have hhead : lastDelivery (s :: rest) b k =
        (lastDelivery rest b k).or (if s.1 - b = k then some s.2 else none) := by
      unfold lastDelivery
      exact lastDelivery_acc b k rest (if s.1 - b = k then some s.2 else none)
    calc bucketLookup (bucketsFold b bs (s :: rest)) k
        = bucketLookup (bucketsFold b (updateBucket bs (s.1 - b) s.2) rest) k := rfl
      _ = (lastDelivery rest b k).or (bucketLookup (updateBucket bs (s.1 - b) s.2) k) := ih _ _
      _ = (lastDelivery rest b k).or
            (if s.1 - b = k then some s.2 else bucketLookup bs k) := by
          rw [bucketLookup_update]
      _ = (lastDelivery (s :: rest) b k).or (bucketLookup bs k) := by
          rw [hhead, Option.or_assoc]
          by_cases h : s.1 - b = k <;> simp [h]

/-- Helper: the key list of the folded buckets is the first-occurrence
key fold. -/
theorem bucketsFold_keys (b : Nat) : ∀ (segs : List (Nat × List Nat))
    (bs : List (Nat × List Nat)),
    (bucketsFold b bs segs).map Prod.fst =
      segs.foldl (fun ks s => if s.1 - b ∈ ks then ks else ks ++ [s.1 - b])
        (bs.map Prod.fst) := by
  intro segs
  induction segs with
  | nil => intro bs; rfl
  | cons s rest ih =>
    intro bs
    calc (bucketsFold b bs (s :: rest)).map Prod.fst
        = (bucketsFold b (updateBucket bs (s.1 - b) s.2) rest).map Prod.fst := rfl
      _ = rest.foldl (fun ks s => if s.1 - b ∈ ks then ks else ks ++ [s.1 - b])
            ((updateBucket bs (s.1 - b) s.2).map Prod.fst) := ih _
      _ = _ := by rw [updateBucket_keys]; rfl

end Daly

/-- Claim C7: the protocol-A segment aggregation produces exactly the
specified result: with the base inferred from the first observed segment
index (0 if it is 0, else 1), and any sequence of segments whose indices
are at or above that base (duplicates allowed), finalization yields the
last-delivered values of each distinct adjusted index, concatenated in
ascending index order and truncated to the expected total count; and the
established base is the inferred one. -/
theorem C7_aggregator_refines (segs : List (Nat × List Nat)) (n : Nat)
    (hall : ∀ s ∈ segs, Daly.inferredBase segs ≤ s.1) :
    Daly.aggFinalize (Daly.collectSegments segs) n = Daly.specFinalize segs n ∧
    (Daly.collectSegments segs).frameBase =
      (if segs = [] then none else some (Daly.inferredBase segs)) := by
  match segs, hall with
  | [], _ =>
    constructor
    · rfl
    · rfl
  | s0 :: rest, hall =>
    have hb0 : Daly.inferredBase (s0 :: rest) ≤ s0.1 := hall s0 (by simp)
    set b := Daly.inferredBase (s0 :: rest) with hbdef
    have hstep : Daly.aggStep Daly.initAgg s0 =
        ⟨some b, Daly.updateBucket [] (s0.1 - b) s0.2⟩ := by
      have hb' : (if s0.1 = 0 then (0 : Nat) else 1) ≤ s0.1 := by
        have hcopy := hb0
        rw [hbdef] at hcopy
        simpa [Daly.inferredBase] using hcopy
      rw [hbdef]
      simp [Daly.aggStep, Daly.initAgg, Daly.inferredBase, hb']
    have hcollect : Daly.collectSegments (s0 :: rest) =
        ⟨some b, Daly.bucketsFold b [] (s0 :: rest)⟩ := by
      unfold Daly.collectSegments
      calc (s0 :: rest).foldl Daly.aggStep Daly.initAgg
          = rest.foldl Daly.aggStep (Daly.aggStep Daly.initAgg s0) := rfl
        _ = rest.foldl Daly.aggStep ⟨some b, Daly.updateBucket [] (s0.1 - b) s0.2⟩ := by
            rw [hstep]
        _ = ⟨some b, Daly.bucketsFold b (Daly.updateBucket [] (s0.1 - b) s0.2) rest⟩ :=
            Daly.collect_established b rest _ (fun x hx => hall x (by simp [hx]))
        _ = ⟨some b, Daly.bucketsFold b [] (s0 :: rest)⟩ := rfl
    constructor
    · rw [hcollect]
      unfold Daly.aggFinalize Daly.specFinalize
      have hkeys : (Daly.bucketsFold b [] (s0 :: rest)).map Prod.fst =
          Daly.deliveredKeys (s0 :: rest) b := by
        rw [Daly.bucketsFold_keys]
        rfl
      have hlook : (fun k => (Daly.bucketLookup
            (Daly.bucketsFold b [] (s0 :: rest)) k).getD ([] : List Nat)) =
          (fun k => (Daly.lastDelivery (s0 :: rest) b k).getD []) := by
        funext k
        rw [Daly.bucketsFold_lookup]
        simp [Daly.bucketLookup]
      dsimp only
      rw [hkeys, hlook, ← hbdef]
    · rw [hcollect]
      simp

/-- Witness for C7 on the spec's own example: segments with indices
1, 2, 3 carrying three values each, base inferred as 1, expected total
count 9 — finalization yields the nine values flattened in index order
(checked here via the refinement equation and its concrete value). -/
theorem C7_aggregator_refines_witness :
    (∀ s ∈ [(1, [11, 12, 13]), (2, [21, 22, 23]), (3, [31, 32, 33])],
      Daly.inferredBase [(1, [11, 12, 13]), (2, [21, 22, 23]), (3, [31, 32, 33])] ≤
        s.1) ∧
    Daly.aggFinalize (Daly.collectSegments
        [(1, [11, 12, 13]), (2, [21, 22, 23]), (3, [31, 32, 33])]) 9 =
      Daly.specFinalize [(1, [11, 12, 13]), (2, [21, 22, 23]), (3, [31, 32, 33])] 9 ∧
    Daly.aggFinalize (Daly.collectSegments
        [(1, [11, 12, 13]), (2, [21, 22, 23]), (3, [31, 32, 33])]) 9 =
      [11, 12, 13, 21, 22, 23, 31, 32, 33] :=
  ⟨by decide,
    (C7_aggregator_refines
      [(1, [11, 12, 13]), (2, [21, 22, 23]), (3, [31, 32, 33])] 9 (by decide)).1,
    by decide⟩
